import Mathlib

/-!
# Verification of the ScyllaDB backfill service core

Shallow embedding of `src/proto_backfill_main.py` (class `ScyllaBackfillService`).

Modelling conventions:
* A source table is a finite list of rows (`List α`); `SELECT COUNT(*)` is its
  length and the row stream `SELECT * FROM t` yields exactly those rows in order.
* Target writes (`tgt_service.session.execute(insert_query, values)`) are logged
  into a `written` list; a write fault model `wf : Nat → Bool` says whether the
  write with a given global attempt index raises.  A raised write aborts the copy
  exactly as the Python exception propagates to the `except` at line 205.
* Checkpoint files live in an association list keyed by table name; `timestamp`
  is a logical counter (the batch number at save time) in place of the wall-clock
  ISO string, which preserves the strict increase across saves of one copy.
* `self.stats` is threaded explicitly: `copy_table_data` receives the statistics
  record and returns the updated one, mirroring the in-place mutation.
* Performance metrics (`get_performance_metrics`) depend on wall-clock duration
  and host CPU/memory; only the fact that an entry keyed by the table name is
  recorded into `stats['performance_metrics']` (line 191) is modelled.
-/

namespace Backfill

/-- The `Checkpoint` dataclass (lines 25-31). -/
structure Checkpoint where
  table_name : String
  processed_count : Nat
  total_count : Nat
  timestamp : Nat
  batch_size : Nat
  deriving Repr, DecidableEq

/-- The `self.stats` dictionary (lines 49-55); `performance_metrics` keeps, per
table, the `total_records` of the stored metrics snapshot. -/
structure Stats where
  tables_processed : Nat
  records_processed : Nat
  errors : Nat
  performance_metrics : List (String × Nat)
  deriving Repr, DecidableEq

/-- The configuration fields the copier consults (lines 59-61, 367). -/
structure Config where
  batch_size : Nat
  enable_resume : Bool
  enable_parallel : Bool
  deriving Repr, DecidableEq

/-- The `checkpoints/` directory: one JSON file per table name. -/
abbrev CheckpointStore := List (String × Checkpoint)

/-- `save_checkpoint` (lines 210-225): overwrites any prior record for the table. -/
def store_save (s : CheckpointStore) (name : String) (cp : Checkpoint) : CheckpointStore :=
  s.filter (fun e => e.1 != name) ++ [(name, cp)]

/-- Reading `checkpoints/{name}.json` if it exists. -/
def store_load (s : CheckpointStore) (name : String) : Option Checkpoint :=
  (s.find? (fun e => e.1 == name)).map (fun e => e.2)

/-- `clear_checkpoint` (lines 238-245): removes the record if present. -/
def store_clear (s : CheckpointStore) (name : String) : CheckpointStore :=
  s.filter (fun e => e.1 != name)

/-- State of the streaming loop of `copy_table_data` (lines 136-166):
`current_batch`, `processed_count`, `batch_num`, plus the explicit effects
(rows written to the target, checkpoints saved), the global write-attempt
index `idx` for the fault model, and whether a write has raised. -/
structure LoopState (α : Type) where
  current_batch : List α
  processed_count : Nat
  batch_num : Nat
  written : List α
  saves : List Checkpoint
  idx : Nat
  failed : Bool
  deriving Repr

/-- Row-at-a-time application of one batch to the target (lines 149-151 and
170-172): each row is inserted by one `session.execute`; the first raising
write (per the fault model `wf`) aborts the batch.  Returns the rows actually
written, the next write-attempt index, and whether the whole batch succeeded. -/
def flushBatch {α : Type} (wf : Nat → Bool) : Nat → List α → List α × Nat × Bool
  | i, [] => ([], i, true)
  | i, r :: rs =>
    if wf i then ([], i, false)
    else
      let t := flushBatch wf (i + 1) rs
      (r :: t.1, t.2.1, t.2.2)

/-- One iteration of `for row in all_rows` (lines 143-165): append the row to
`current_batch`; when the batch is full, write it row by row, bump the
counters, and every 10th batch persist a checkpoint (lines 156-158). After a
write has raised no further source row is consumed (the exception propagates). -/
def copyStep {α : Type} (resume : Bool) (name : String) (B total : Nat)
    (wf : Nat → Bool) (st : LoopState α) (row : α) : LoopState α :=
  if st.failed then st
  else
    let cb := st.current_batch ++ [row]
    if B ≤ cb.length then
      let t := flushBatch wf st.idx cb
      if t.2.2 then
        let pc := st.processed_count + cb.length
        let bn := st.batch_num + 1
        let saves :=
          if resume && bn % 10 == 0 then st.saves ++ [⟨name, pc, total, bn, B⟩]
          else st.saves
        { current_batch := [], processed_count := pc, batch_num := bn,
          written := st.written ++ t.1, saves := saves, idx := t.2.1, failed := false }
      else
        { st with written := st.written ++ t.1, idx := t.2.1, failed := true }
    else
      { st with current_batch := cb }

/-- Outcome of the body of `copy_table_data`'s `try` block:
* `empty` — the up-front `COUNT(*)` was `0` and the method returned `True`
  early (lines 115-117), before any write, checkpoint, metric or stats update;
* `ok` — the stream was fully copied (reaching line 203);
* `failed` — some target write raised and control jumped to line 205. -/
inductive CoreOutcome (α : Type) where
  | empty : CoreOutcome α
  | ok (written : List α) (flushes : Nat) (saves : List Checkpoint)
      (pc : Nat) : CoreOutcome α
  | failed (written : List α) (flushes : Nat) (saves : List Checkpoint) : CoreOutcome α
  deriving Repr

/-- The `try` body of `copy_table_data` (lines 99-203): count, stream in
batches of `B`, flush the trailing partial batch (lines 167-183, with its
unconditional checkpoint save at lines 177-179 when resume is on). -/
def copy_core {α : Type} (resume : Bool) (name : String) (B : Nat)
    (rows : List α) (wf : Nat → Bool) : CoreOutcome α :=
  let total := rows.length
  if total = 0 then .empty
  else
    let st0 : LoopState α := ⟨[], 0, 0, [], [], 0, false⟩
    let st := rows.foldl (copyStep resume name B total wf) st0
    if st.failed then .failed st.written st.batch_num st.saves
    else if st.current_batch.isEmpty then
      .ok st.written st.batch_num st.saves st.processed_count
    else
      let cb := st.current_batch
      let t := flushBatch wf st.idx cb
      if t.2.2 then
        let pc := st.processed_count + cb.length
        let bn := st.batch_num + 1
        let saves := if resume then st.saves ++ [⟨name, pc, total, bn, B⟩] else st.saves
        .ok (st.written ++ t.1) bn saves pc
      else .failed (st.written ++ t.1) st.batch_num st.saves

/-- Everything observable about one `copy_table_data` invocation. `written` is
the sequence of rows applied via the prepared single-row insert;
`parallel_calls` counts invocations of `process_batch_parallel` (the method
body never references it, so the count is `0` on every path); `cleared`
records whether `clear_checkpoint` ran (line 197). -/
structure CopyResult (α : Type) where
  success : Bool
  written : List α
  flushes : Nat
  saves : List Checkpoint
  cleared : Bool
  parallel_calls : Nat
  processed_count : Nat
  metrics_recorded : Bool
  stats : Stats
  store : CheckpointStore
  deriving Repr

/-- Replay the checkpoint saves of one copy onto the store. -/
def applySaves (store : CheckpointStore) (name : String)
    (saves : List Checkpoint) : CheckpointStore :=
  saves.foldl (fun s cp => store_save s name cp) store

/-- `copy_table_data` (lines 96-208).  On the empty-table early return nothing
else happens; on success, metrics are stored (line 191), the checkpoint is
cleared when resume is on (lines 196-197), and `tables_processed` /
`records_processed` are bumped (lines 200-201); on a raised write the error
counter is bumped and `False` is returned (lines 205-208) with no clear.
`cfg.enable_parallel` is accepted (it is a field of the service) but the
method body never reads it. -/
def copy_table_data {α : Type} (cfg : Config) (name : String) (B : Nat)
    (rows : List α) (wf : Nat → Bool) (stats : Stats) (store : CheckpointStore) :
    CopyResult α :=
  match copy_core cfg.enable_resume name B rows wf with
  | .empty =>
      { success := true, written := [], flushes := 0, saves := [], cleared := false,
        parallel_calls := 0, processed_count := 0, metrics_recorded := false,
        stats := stats, store := store }
  | .ok written flushes saves pc =>
      let store1 := applySaves store name saves
      { success := true, written := written, flushes := flushes, saves := saves,
        cleared := cfg.enable_resume, parallel_calls := 0, processed_count := pc,
        metrics_recorded := true,
        stats := { stats with
          tables_processed := stats.tables_processed + 1,
          records_processed := stats.records_processed + pc,
          performance_metrics := stats.performance_metrics ++ [(name, pc)] },
        store := if cfg.enable_resume then store_clear store1 name else store1 }
  | .failed written flushes saves =>
      { success := false, written := written, flushes := flushes, saves := saves,
        cleared := false, parallel_calls := 0, processed_count := 0,
        metrics_recorded := false,
        stats := { stats with errors := stats.errors + 1 },
        store := applySaves store name saves }

/-- Rows counted by the concurrent path of `process_batch_parallel`
(lines 314-329): `as_completed` observes the futures in an arbitrary
completion order (modelled by `order`, a permutation of the batch indices);
a batch whose future raised (per `fails`, indexed by submission position) is
logged and contributes nothing (lines 328-329), otherwise its row count is
added to `processed_count` (line 325). -/
def concurrent_rows {α : Type} (fails : Nat → Bool) (batches : List (List α))
    (order : List Nat) : Nat :=
  (order.map (fun i => if fails i then 0 else (batches.getD i []).length)).sum

/-- `process_batch_parallel` (lines 302-340).  `pool_ok` is whether the
`ThreadPoolExecutor` could be constructed; when it cannot, the `except` at
line 331 applies every batch sequentially, counting one row per insert
(lines 334-338), and the concurrent path is never entered. -/
def process_batch_parallel {α : Type} (pool_ok : Bool) (fails : Nat → Bool)
    (order : List Nat) (batches : List (List α)) : Nat :=
  if pool_ok then concurrent_rows fails batches order
  else (batches.map List.length).sum

/-- Per-table input to the run: the table name, its source rows and the write
fault model in force while it is copied. -/
structure TableSpec (α : Type) where
  name : String
  rows : List α
  writeFails : Nat → Bool

/-- One iteration of the `for table_name in tables` loop of `run_backfill`
(lines 370-383): copy the table; on failure `continue` to the next table
(lines 378-380); on success call `validate_data_integrity_detailed` and
discard its boolean result (line 383) — `validate` stands for that result. -/
def runStep {α : Type} (cfg : Config) (validate : String → Bool)
    (acc : Stats × CheckpointStore) (t : TableSpec α) : Stats × CheckpointStore :=
  let r := copy_table_data cfg t.name cfg.batch_size t.rows t.writeFails acc.1 acc.2
  if r.success then
    let _ := validate t.name
    (r.stats, r.store)
  else
    (r.stats, r.store)

/-- `run_backfill` (lines 357-397) in the absence of a termination signal
(`self.running` stays `True`): initialization failure returns `False` before
any table (lines 362-364); otherwise every table is processed and the method
returns `True` regardless of per-table outcomes (line 391). -/
def run_backfill {α : Type} (cfg : Config) (validate : String → Bool)
    (init_ok : Bool) (tables : List (TableSpec α)) (stats : Stats)
    (store : CheckpointStore) : Bool × Stats × CheckpointStore :=
  if init_ok then
    let p := tables.foldl (runStep cfg validate) (stats, store)
    (true, p.1, p.2)
  else
    (false, stats, store)

/-! ## Checkpoint file loading (`load_checkpoint`, lines 227-236)

The stored file is modelled as `Option (Option Json)`: `none` — the file does
not exist (`os.path.exists` is false); `some none` — the file exists but
`json.load` raises; `some (some j)` — the file parses to the JSON value `j`.
`Checkpoint(**data)` raises `TypeError` unless `data` is an object whose key
set is exactly the five dataclass field names (Python dataclasses do not check
the value types); every raise is caught and turned into `None` (lines
234-236). -/

/-- A JSON value as produced by `json.load`. -/
inductive Json where
  | null : Json
  | bool (b : Bool) : Json
  | num (n : Int) : Json
  | str (s : String) : Json
  | arr (xs : List Json) : Json
  | obj (fields : List (String × Json)) : Json

/-- The five field names of the `Checkpoint` dataclass, in declaration order. -/
def checkpointFields : List String :=
  ["table_name", "processed_count", "total_count", "timestamp", "batch_size"]

/-- Whether `Checkpoint(**data)` succeeds: `data` must be an object whose keys
are exactly the five dataclass fields (JSON objects have no duplicate keys). -/
def checkpointKeysOk : Json → Bool
  | .obj fields =>
      fields.length == checkpointFields.length
        && (fields.map Prod.fst).all (fun k => checkpointFields.contains k)
        && checkpointFields.all (fun k => (fields.map Prod.fst).contains k)
  | _ => false

/-- The (untyped, as in Python) record built by `Checkpoint(**data)`. -/
structure StoredCheckpoint where
  table_name : Json
  processed_count : Json
  total_count : Json
  timestamp : Json
  batch_size : Json

/-- `Checkpoint(**data)` with the `TypeError` caught: the record when the keys
match the dataclass shape, `none` otherwise. -/
def checkpoint_of_json (j : Json) : Option StoredCheckpoint :=
  if checkpointKeysOk j then
    match j with
    | .obj fields =>
        some { table_name := ((fields.find? (fun e => e.1 == "table_name")).map (fun e => e.2)).getD .null,
               processed_count := ((fields.find? (fun e => e.1 == "processed_count")).map (fun e => e.2)).getD .null,
               total_count := ((fields.find? (fun e => e.1 == "total_count")).map (fun e => e.2)).getD .null,
               timestamp := ((fields.find? (fun e => e.1 == "timestamp")).map (fun e => e.2)).getD .null,
               batch_size := ((fields.find? (fun e => e.1 == "batch_size")).map (fun e => e.2)).getD .null }
    | _ => none
  else none

/-- `load_checkpoint` (lines 227-236): absent file → `None`; unparseable file
→ exception caught, `None`; parseable file → `Checkpoint(**data)`, with a
`TypeError` on a mismatched shape also caught and turned into `None`. -/
def load_checkpoint (stored : Option (Option Json)) : Option StoredCheckpoint :=
  match stored with
  | none => none
  | some none => none
  | some (some j) => checkpoint_of_json j

/-- The checkpoints saved by one `copy_table_data` body, by outcome. -/
def CoreOutcome.savesOf {α : Type} : CoreOutcome α → List Checkpoint
  | .empty => []
  | .ok _ _ s _ => s
  | .failed _ _ s => s

/-- Invariant of the fault-free streaming loop, over the consumed source
prefix `p`: no write has raised, the target holds exactly the flushed prefix,
the pending batch is strictly shorter than `B`, and every flush moved exactly
`B` rows. -/
def InvFF {α : Type} (B : Nat) (p : List α) (st : LoopState α) : Prop :=
  st.failed = false ∧
  st.written ++ st.current_batch = p ∧
  st.processed_count = st.written.length ∧
  st.idx = st.written.length ∧
  st.current_batch.length < B ∧
  st.written.length = B * st.batch_num

/-- Invariant bounding every saved checkpoint, valid also across write
faults: the running count never exceeds the consumed prefix, and every saved
checkpoint carries a `processed_count` at most the running count together with
the up-front total. -/
def InvSafe {α : Type} (total : Nat) (p : List α) (st : LoopState α) : Prop :=
  st.processed_count + st.current_batch.length ≤ p.length ∧
  ∀ cp ∈ st.saves, cp.processed_count ≤ st.processed_count ∧ cp.total_count = total

/-- The rows one table adds to `records_processed` (line 201): its final
`processed_count` when its copy reaches the success path, otherwise `0`. -/
def tableRecords {α : Type} (cfg : Config) (t : TableSpec α) : Nat :=
  match copy_core cfg.enable_resume t.name cfg.batch_size t.rows t.writeFails with
  | .ok _ _ _ pc => pc
  | _ => 0

/-- Whether one table's copy reaches the success path at lines 199-203 (the
empty-table early return at line 117 does not). -/
def tableCounted {α : Type} (cfg : Config) (t : TableSpec α) : Bool :=
  match copy_core cfg.enable_resume t.name cfg.batch_size t.rows t.writeFails with
  | .ok _ _ _ _ => true
  | _ => false

lemma flushBatch_noFail {α : Type} {wf : Nat → Bool} (hwf : ∀ i, wf i = false)
    (l : List α) : ∀ i, flushBatch wf i l = (l, i + l.length, true) := by
  induction l with
  | nil => intro i; simp [flushBatch]
  | cons r rs ih =>
      intro i
      have harith : i + 1 + rs.length = i + (rs.length + 1) := by omega
      simp [flushBatch, hwf i, ih (i + 1), harith]

lemma copyStep_invFF {α : Type} {B : Nat} (hB : 0 < B) {wf : Nat → Bool}
    (hwf : ∀ i, wf i = false) (resume : Bool) (name : String) (total : Nat)
    {p : List α} {st : LoopState α} (row : α) (h : InvFF B p st) :
    InvFF B (p ++ [row]) (copyStep resume name B total wf st row) := by
  obtain ⟨hf, hw, hpc, hidx, hcb, hbn⟩ := h
  by_cases hle : B ≤ (st.current_batch ++ [row]).length
  · have hlen : (st.current_batch ++ [row]).length = B := by
      simp only [List.length_append, List.length_singleton] at hle ⊢
      omega
    simp only [copyStep, hf, Bool.false_eq_true, if_false, if_pos hle,
      flushBatch_noFail hwf, if_true, List.append_nil]
    refine ⟨rfl, ?_, ?_, ?_, by simpa using hB, ?_⟩
    · dsimp only []
      rw [List.append_nil, ← List.append_assoc, hw]
    · dsimp only []
      simp [hpc]
    · dsimp only []
      simp [hidx]
    · dsimp only []
      rw [List.length_append, hlen, hbn, Nat.mul_succ]
  · simp only [copyStep, hf, Bool.false_eq_true, if_false, if_neg hle]
    refine ⟨rfl, ?_, hpc, hidx, ?_, hbn⟩
    · dsimp only []
      rw [← List.append_assoc, hw]
    · dsimp only []
      simp only [List.length_append, List.length_singleton] at hle ⊢
      omega

lemma ceil_div_eq {N B : Nat} (hB : 0 < B) :
    (N + B - 1) / B = N / B + (if N % B = 0 then 0 else 1) := by
  have hmod := Nat.div_add_mod N B
  set q := N / B with hq
  set r := N % B with hr
  have hrB : r < B := Nat.mod_lt _ hB
  by_cases h0 : r = 0
  · have hN : N + B - 1 = (B - 1) + B * q := by omega
    rw [hN, Nat.add_mul_div_left _ _ hB, Nat.div_eq_of_lt (by omega)]
    simp [h0]
  · have hmul : B * (q + 1) = B * q + B := by ring
    have hN : N + B - 1 = (r - 1) + B * (q + 1) := by omega
    rw [hN, Nat.add_mul_div_left _ _ hB, Nat.div_eq_of_lt (by omega)]
    simp [h0]

lemma foldl_invFF {α : Type} {B : Nat} (hB : 0 < B) {wf : Nat → Bool}
    (hwf : ∀ i, wf i = false) (resume : Bool) (name : String) (total : Nat)
    (l : List α) : ∀ (p : List α) (st : LoopState α), InvFF B p st →
    InvFF B (p ++ l) (l.foldl (copyStep resume name B total wf) st) := by
  induction l with
  | nil => intro p st h; simpa using h
  | cons r rs ih =>
      intro p st h
      have h1 := copyStep_invFF hB hwf resume name total r h
      have h2 := ih (p ++ [r]) _ h1
      simpa [List.append_assoc] using h2

lemma copy_core_noFail {α : Type} (resume : Bool) (name : String) {B : Nat}
    (hB : 0 < B) {wf : Nat → Bool} (hwf : ∀ i, wf i = false) (rows : List α)
    (hne : rows ≠ []) :
    ∃ saves, copy_core resume name B rows wf
        = .ok rows ((rows.length + B - 1) / B) saves rows.length
      ∧ (resume = true → rows.length % B ≠ 0 →
          saves.getLast? = some ⟨name, rows.length, rows.length,
            rows.length / B + 1, B⟩) := by
  have hlen0 : rows.length ≠ 0 := by
    simpa [List.length_eq_zero] using hne
  have hinv0 : InvFF B ([] : List α) ⟨[], 0, 0, [], [], 0, false⟩ := by
    refine ⟨rfl, rfl, rfl, rfl, by simpa using hB, by simp⟩
  have hinv := foldl_invFF hB hwf resume name rows.length rows [] _ hinv0
  rw [List.nil_append] at hinv
  set st := rows.foldl (copyStep resume name B rows.length wf)
    (⟨[], 0, 0, [], [], 0, false⟩ : LoopState α) with hst
  obtain ⟨hf, hw, hpc, hidx, hcb, hbn⟩ := hinv
  by_cases hcbe : st.current_batch.isEmpty
  · -- the stream length was an exact multiple of B: no trailing batch
    have hcbnil : st.current_batch = [] := List.isEmpty_iff.mp hcbe
    have hwr : st.written = rows := by simpa [hcbnil] using hw
    have hN : rows.length = B * st.batch_num := by rw [← hwr, hbn]
    have hNmod : rows.length % B = 0 := by rw [hN]; exact Nat.mul_mod_right B _
    have hflush : st.batch_num = (rows.length + B - 1) / B := by
      rw [ceil_div_eq hB, if_pos hNmod, hN, Nat.mul_div_cancel_left _ hB]
      rfl
    refine ⟨st.saves, ?_, ?_⟩
    · simp only [copy_core, if_neg hlen0, ← hst, hf, Bool.false_eq_true, if_false,
        hcbe, if_true]
      rw [hwr, hpc, hwr, hflush]
    · intro _ hm
      exact absurd hNmod hm
  · -- a partial trailing batch remains and is flushed, with its final save
    have hc0 : st.current_batch.length ≠ 0 := by
      simpa [List.isEmpty_iff, List.length_eq_zero] using hcbe
    have hNeq : rows.length = st.current_batch.length + B * st.batch_num := by
      rw [← hw, List.length_append, hbn]
      omega
    have hdiv : rows.length / B = st.batch_num := by
      rw [hNeq, Nat.add_mul_div_left _ _ hB, Nat.div_eq_of_lt hcb]
      simp
    have hmod : rows.length % B = st.current_batch.length := by
      rw [hNeq, Nat.add_mul_mod_self_left]
      exact Nat.mod_eq_of_lt hcb
    have hflush : st.batch_num + 1 = (rows.length + B - 1) / B := by
      rw [ceil_div_eq hB, if_neg (by omega), hdiv]
    have hpcN : st.processed_count + st.current_batch.length = rows.length := by
      rw [hpc, ← List.length_append, hw]
    refine ⟨if resume then st.saves ++
        [⟨name, st.processed_count + st.current_batch.length, rows.length,
          st.batch_num + 1, B⟩] else st.saves, ?_, ?_⟩
    · simp only [copy_core, if_neg hlen0, ← hst, hf, Bool.false_eq_true, if_false,
        hcbe, flushBatch_noFail hwf, if_true]
      rw [hpcN, hflush, hw]
    · intro hres _
      subst hres
      rw [if_pos rfl, List.getLast?_concat, hpcN, hdiv]

/-- C1: for every table whose source stream yields exactly `N` rows and every
batch size `B > 0`, under fault-free conditions `copy_table_data` succeeds,
performs exactly `ceil(N / B) = (N + B - 1) / B` flush operations, and writes
to the target exactly the `N` source rows, in order — no row duplicated, no
row lost. -/
theorem c1_copy_flushes_and_rows {α : Type} (cfg : Config) (name : String)
    {B : Nat} (rows : List α) {wf : Nat → Bool} (stats : Stats)
    (store : CheckpointStore) (hB : 0 < B) (hwf : ∀ i, wf i = false) :
    (copy_table_data cfg name B rows wf stats store).success = true ∧
    (copy_table_data cfg name B rows wf stats store).written = rows ∧
    (copy_table_data cfg name B rows wf stats store).flushes
      = (rows.length + B - 1) / B := by
  by_cases hne : rows = []
  · subst hne
    refine ⟨rfl, rfl, ?_⟩
    show 0 = (0 + B - 1) / B
    rw [Nat.div_eq_of_lt (by omega)]
  · obtain ⟨saves, hcc, -⟩ :=
      copy_core_noFail cfg.enable_resume name hB hwf rows hne
    simp [copy_table_data, hcc]

/-- C4 (amended): with resume enabled and fault-free writes, a final
Checkpoint carrying the full `processed_count = N` is persisted after the
stream is exhausted exactly when a partial trailing batch exists, i.e. when
`N` is not an exact multiple of `batch_size` (when it is an exact multiple,
the trailing-batch block at lines 167-183 is skipped and no final save
occurs). -/
theorem c4_final_checkpoint_on_partial_batch {α : Type} (cfg : Config)
    (name : String) {B : Nat} (rows : List α) {wf : Nat → Bool} (stats : Stats)
    (store : CheckpointStore) (hB : 0 < B) (hwf : ∀ i, wf i = false)
    (hres : cfg.enable_resume = true) (hmod : rows.length % B ≠ 0) :
    ∃ ts, (copy_table_data cfg name B rows wf stats store).saves.getLast?
      = some ⟨name, rows.length, rows.length, ts, B⟩ := by
  have hne : rows ≠ [] := by
    intro h
    rw [h] at hmod
    simp at hmod
  obtain ⟨saves, hcc, hlast⟩ :=
    copy_core_noFail cfg.enable_resume name hB hwf rows hne
  refine ⟨rows.length / B + 1, ?_⟩
  simp only [copy_table_data, hcc]
  exact hlast hres hmod

/-- C4 counterexample: a 10-row table at `batch_size = 5` with resume
enabled completes successfully with an empty save list — no final Checkpoint
carrying `processed_count = 10` is ever persisted, refuting the claim for row
counts that are an exact multiple of `batch_size` (the final save at lines
177-179 sits inside `if current_batch:`). -/
theorem c4_counterexample :
    (copy_table_data ⟨5, true, true⟩ "t" 5 (List.range 10) (fun _ => false)
      (⟨0, 0, 0, []⟩ : Stats) []).success = true ∧
    (copy_table_data ⟨5, true, true⟩ "t" 5 (List.range 10) (fun _ => false)
      (⟨0, 0, 0, []⟩ : Stats) []).saves = [] := by
  exact ⟨rfl, rfl⟩

lemma copyStep_invSafe {α : Type} (B total : Nat) (resume : Bool) (name : String)
    (wf : Nat → Bool) {p : List α} {st : LoopState α} (row : α)
    (h : InvSafe total p st) :
    InvSafe total (p ++ [row]) (copyStep resume name B total wf st row) := by
  obtain ⟨hb, hs⟩ := h
  cases hfb : st.failed
  · simp only [copyStep, hfb, Bool.false_eq_true, if_false]
    by_cases hle : B ≤ (st.current_batch ++ [row]).length
    · rw [if_pos hle]
      by_cases hok : (flushBatch wf st.idx (st.current_batch ++ [row])).2.2 = true
      · rw [if_pos hok]
        refine ⟨?_, ?_⟩
        · dsimp only []
          simp only [List.length_append, List.length_singleton, List.length_nil]
            at hb ⊢
          omega
        · intro cp hm
          dsimp only [] at hm ⊢
          by_cases hsv : (resume && (st.batch_num + 1) % 10 == 0) = true
          · rw [if_pos hsv] at hm
            rcases List.mem_append.mp hm with hm1 | hm2
            · have := hs cp hm1
              constructor
              · simp only [List.length_append, List.length_singleton]
                omega
              · exact this.2
            · rcases List.mem_singleton.mp hm2 with rfl
              exact ⟨le_refl _, rfl⟩
          · rw [if_neg hsv] at hm
            have := hs cp hm
            constructor
            · simp only [List.length_append, List.length_singleton]
              omega
            · exact this.2
      · rw [if_neg hok]
        refine ⟨?_, ?_⟩
        · dsimp only []
          simp only [List.length_append]
          omega
        · intro cp hm
          exact hs cp hm
    · rw [if_neg hle]
      refine ⟨?_, ?_⟩
      · dsimp only []
        simp only [List.length_append, List.length_singleton] at hb ⊢
        omega
      · intro cp hm
        exact hs cp hm
  · simp only [copyStep, hfb, if_true]
    refine ⟨?_, hs⟩
    simp only [List.length_append, List.length_singleton]
    omega

lemma foldl_invSafe {α : Type} (B total : Nat) (resume : Bool) (name : String)
    (wf : Nat → Bool) (l : List α) : ∀ (p : List α) (st : LoopState α),
    InvSafe total p st →
    InvSafe total (p ++ l) (l.foldl (copyStep resume name B total wf) st) := by
  induction l with
  | nil => intro p st h; simpa using h
  | cons r rs ih =>
      intro p st h
      have h1 := copyStep_invSafe B total resume name wf r h
      have h2 := ih (p ++ [r]) _ h1
      simpa [List.append_assoc] using h2

lemma copy_core_saves_bound {α : Type} (resume : Bool) (name : String) (B : Nat)
    (rows : List α) (wf : Nat → Bool) :
    ∀ cp ∈ (copy_core resume name B rows wf).savesOf,
      cp.processed_count ≤ rows.length ∧ cp.total_count = rows.length := by
  by_cases hlen0 : rows.length = 0
  · simp [copy_core, hlen0, CoreOutcome.savesOf]
  · have hinv0 : InvSafe rows.length ([] : List α) ⟨[], 0, 0, [], [], 0, false⟩ :=
      ⟨by simp, by simp⟩
    have hinv := foldl_invSafe B rows.length resume name wf rows [] _ hinv0
    rw [List.nil_append] at hinv
    set st := rows.foldl (copyStep resume name B rows.length wf)
      (⟨[], 0, 0, [], [], 0, false⟩ : LoopState α) with hst
    obtain ⟨hb, hs⟩ := hinv
    simp only [copy_core, if_neg hlen0, ← hst]
    cases hfb : st.failed
    · simp only [hfb, Bool.false_eq_true, if_false]
      by_cases hcbe : st.current_batch.isEmpty
      · simp only [hcbe, if_true, CoreOutcome.savesOf]
        intro cp hm
        have := hs cp hm
        exact ⟨by omega, this.2⟩
      · simp only [hcbe, Bool.false_eq_true, if_false]
        by_cases hok : (flushBatch wf st.idx st.current_batch).2.2 = true
        · rw [if_pos hok]
          simp only [CoreOutcome.savesOf]
          intro cp hm
          by_cases hsv : resume = true
          · rw [if_pos hsv] at hm
            rcases List.mem_append.mp hm with hm1 | hm2
            · have := hs cp hm1
              exact ⟨by omega, this.2⟩
            · rcases List.mem_singleton.mp hm2 with rfl
              refine ⟨?_, rfl⟩
              show st.processed_count + st.current_batch.length ≤ rows.length
              omega
          · rw [if_neg hsv] at hm
            have := hs cp hm
            exact ⟨by omega, this.2⟩
        · rw [if_neg hok]
          simp only [CoreOutcome.savesOf]
          intro cp hm
          have := hs cp hm
          exact ⟨by omega, this.2⟩
    · simp only [hfb, if_true, CoreOutcome.savesOf]
      intro cp hm
      have := hs cp hm
      exact ⟨by omega, this.2⟩

/-- C5: every Checkpoint persisted during a table copy — the every-10th-
batch saves and the trailing-batch save alike, on both the success and the
failure path — satisfies `0 ≤ processed_count ≤ total_count`, and its
`total_count` is the row-count estimate obtained at the start of the copy. -/
theorem c5_checkpoint_bounds {α : Type} (cfg : Config) (name : String) (B : Nat)
    (rows : List α) (wf : Nat → Bool) (stats : Stats) (store : CheckpointStore) :
    ∀ cp ∈ (copy_table_data cfg name B rows wf stats store).saves,
      0 ≤ cp.processed_count ∧ cp.processed_count ≤ cp.total_count ∧
      cp.total_count = rows.length := by
  intro cp hcp
  have hsaves : (copy_table_data cfg name B rows wf stats store).saves
      = (copy_core cfg.enable_resume name B rows wf).savesOf := by
    cases hcc : copy_core cfg.enable_resume name B rows wf <;>
      simp [copy_table_data, hcc, CoreOutcome.savesOf]
  rw [hsaves] at hcp
  have h := copy_core_saves_bound cfg.enable_resume name B rows wf cp hcp
  exact ⟨Nat.zero_le _, h.2 ▸ h.1, h.2⟩

lemma sum_map_getD_range {α : Type} (batches : List (List α)) :
    ((List.range batches.length).map
      (fun i => (batches.getD i []).length)).sum
      = (batches.map List.length).sum := by
  induction batches with
  | nil => simp
  | cons b bs ih =>
      rw [List.length_cons, List.range_succ_eq_map]
      simp only [List.map_cons, List.sum_cons, List.map_map, List.getD_cons_zero]
      have hcomp : ((fun i => (((b :: bs).getD i []).length)) ∘ Nat.succ)
          = (fun i => ((bs.getD i []).length)) := by
        funext i
        simp
      rw [hcomp, ih]

lemma sum_map_ite_zero (s : Nat → Nat) (j : Nat) :
    ∀ (l : List Nat), l.Nodup → j ∈ l →
    (l.map (fun i => if i = j then 0 else s i)).sum = (l.map s).sum - s j := by
  intro l
  induction l with
  | nil => intro _ h; cases h
  | cons a t ih =>
      intro hnd hj
      rw [List.nodup_cons] at hnd
      by_cases haj : a = j
      · subst haj
        have hnotin : a ∉ t := hnd.1
        have hcongr : t.map (fun i => if i = a then 0 else s i) = t.map s := by
          apply List.map_congr_left
          intro i hi
          have hne : i ≠ a := fun h => hnotin (h ▸ hi)
          rw [if_neg hne]
        simp only [List.map_cons, List.sum_cons, if_true]
        rw [hcongr]
        omega
      · have hjt : j ∈ t := by
          rcases List.mem_cons.mp hj with h | h
          · exact absurd h.symm haj
          · exact h
        have hsle : s j ≤ (t.map s).sum := by
          have hmem : s j ∈ t.map s := List.mem_map_of_mem s hjt
          exact List.single_le_sum (fun x _ => Nat.zero_le x) _ hmem
        simp only [List.map_cons, List.sum_cons, if_neg haj]
        rw [ih hnd.2 hjt]
        omega

/-- C2: for every batch list and every completion order of the worker pool,
the Parallel Batch Executor counts each batch's rows at most once: with zero
induced failures it returns the total row count of all batches; with exactly
one failing batch it returns the total minus exactly that batch's rows; and
the sequential fallback (taken only when the pool cannot be entered) applies
every batch exactly once with no double counting. -/
theorem c2_parallel_executor {α : Type} (batches : List (List α))
    (fails : Nat → Bool) (order : List Nat)
    (hperm : order.Perm (List.range batches.length)) :
    ((∀ i, i < batches.length → fails i = false) →
        process_batch_parallel true fails order batches
          = (batches.map List.length).sum) ∧
    (∀ j, j < batches.length →
        (∀ i, i < batches.length → (fails i = true ↔ i = j)) →
        process_batch_parallel true fails order batches
          = (batches.map List.length).sum - (batches.getD j []).length) ∧
    process_batch_parallel false fails order batches
      = (batches.map List.length).sum := by
  have hsum : ∀ f : Nat → Nat, (order.map f).sum
      = ((List.range batches.length).map f).sum := fun f => (hperm.map f).sum_eq
  refine ⟨?_, ?_, ?_⟩
  · intro hnofail
    show concurrent_rows fails batches order = _
    unfold concurrent_rows
    rw [hsum]
    have hcongr : (List.range batches.length).map
        (fun i => if fails i then 0 else (batches.getD i []).length)
        = (List.range batches.length).map (fun i => (batches.getD i []).length) := by
      apply List.map_congr_left
      intro i hi
      rw [hnofail i (List.mem_range.mp hi)]
      simp
    rw [hcongr, sum_map_getD_range]
  · intro j hj hone
    show concurrent_rows fails batches order = _
    unfold concurrent_rows
    have hcongr : order.map
        (fun i => if fails i then 0 else (batches.getD i []).length)
        = order.map (fun i => if i = j then 0 else (batches.getD i []).length) := by
      apply List.map_congr_left
      intro i hi
      have hilt : i < batches.length := List.mem_range.mp (hperm.mem_iff.mp hi)
      by_cases hij : i = j
      · rw [if_pos ((hone i hilt).mpr hij), if_pos hij]
      · have hfi : fails i = false := by
          cases hfi : fails i
          · rfl
          · exact absurd ((hone i hilt).mp hfi) hij
        rw [hfi, if_neg hij]
        simp
    rw [hcongr, hsum,
      sum_map_ite_zero _ j _ (List.nodup_range _) (List.mem_range.mpr hj),
      sum_map_getD_range]
  · rfl

/-- Witness for C2: three 2-row batches observed in completion order
`[2, 0, 1]` with batch 1 failing yield `6 - 2 = 4` applied rows. -/
theorem c2_witness :
    ([2, 0, 1] : List Nat).Perm (List.range 3) ∧
    process_batch_parallel true (fun i => i == 1) [2, 0, 1]
        ([[1, 2], [3, 4], [5, 6]] : List (List Nat))
      = (([[1, 2], [3, 4], [5, 6]] : List (List Nat)).map List.length).sum
          - (([[1, 2], [3, 4], [5, 6]] : List (List Nat)).getD 1 []).length :=
  ⟨by decide,
    (c2_parallel_executor [[1, 2], [3, 4], [5, 6]] (fun i => i == 1) [2, 0, 1]
        (by decide)).2.1 1 (by decide)
      (by intro i hi; have h3 : i < 3 := hi; interval_cases i <;> decide)⟩

/-- C3 (amended): `copy_table_data` never invokes the Parallel Batch
Executor and its behaviour is identical for both values of `enable_parallel`;
every batch is written sequentially, one row at a time, via the prepared
insert. -/
theorem c3_amended {α : Type} (Bc : Nat) (er b1 b2 : Bool) (name : String)
    (B : Nat) (rows : List α) (wf : Nat → Bool) (stats : Stats)
    (store : CheckpointStore) :
    copy_table_data ⟨Bc, er, b1⟩ name B rows wf stats store
      = copy_table_data ⟨Bc, er, b2⟩ name B rows wf stats store ∧
    (copy_table_data ⟨Bc, er, b1⟩ name B rows wf stats store).parallel_calls
      = 0 := by
  constructor
  · rfl
  · cases hcc : copy_core er name B rows wf <;> simp [copy_table_data, hcc]

/-- C3 counterexample: with `enable_parallel = true`, a 2-row table at
`batch_size = 1` performs 2 full-batch flushes, yet `process_batch_parallel`
is invoked 0 times and both rows are written via the sequential prepared
insert — refuting the claim that, when parallel mode is enabled, every full
batch is applied via the Parallel Batch Executor. -/
theorem c3_counterexample :
    (copy_table_data ⟨1, true, true⟩ "t" 1 [1, 2] (fun _ => false)
      (⟨0, 0, 0, []⟩ : Stats) []).flushes = 2 ∧
    (copy_table_data ⟨1, true, true⟩ "t" 1 [1, 2] (fun _ => false)
      (⟨0, 0, 0, []⟩ : Stats) []).parallel_calls = 0 ∧
    (copy_table_data ⟨1, true, true⟩ "t" 1 [1, 2] (fun _ => false)
      (⟨0, 0, 0, []⟩ : Stats) []).written = [1, 2] :=
  ⟨rfl, rfl, rfl⟩

/-- C6: whenever a write failure makes `copy_table_data` return failure,
`clear_checkpoint` is not executed (any persisted Checkpoint stays in place,
the store holding exactly the saves made before the failure), the run's error
counter increments by exactly one, and `run_backfill` continues with the next
table in the configured list. -/
theorem c6_write_failure_behavior {α : Type} (cfg : Config) (name : String)
    (rows : List α) (wf : Nat → Bool) (validate : String → Bool) (stats : Stats)
    (store : CheckpointStore) (rest : List (TableSpec α))
    (hfail : (copy_table_data cfg name cfg.batch_size rows wf stats store).success
      = false) :
    (copy_table_data cfg name cfg.batch_size rows wf stats store).cleared
      = false ∧
    (copy_table_data cfg name cfg.batch_size rows wf stats store).stats.errors
      = stats.errors + 1 ∧
    (copy_table_data cfg name cfg.batch_size rows wf stats store).store
      = applySaves store name
          (copy_table_data cfg name cfg.batch_size rows wf stats store).saves ∧
    run_backfill cfg validate true (⟨name, rows, wf⟩ :: rest) stats store
      = run_backfill cfg validate true rest
          (copy_table_data cfg name cfg.batch_size rows wf stats store).stats
          (copy_table_data cfg name cfg.batch_size rows wf stats store).store := by
  cases hcc : copy_core cfg.enable_resume name cfg.batch_size rows wf with
  | empty => simp [copy_table_data, hcc] at hfail
  | ok w fl sv pc => simp [copy_table_data, hcc] at hfail
  | failed w fl sv =>
      refine ⟨?_, ?_, ?_, ?_⟩
      · simp [copy_table_data, hcc]
      · simp [copy_table_data, hcc]
      · simp [copy_table_data, hcc]
      · simp [run_backfill, runStep, copy_table_data, hcc]

/-- C7: `load_checkpoint` returns `none` without raising when no
checkpoint record exists, when the stored record is unreadable (invalid
JSON), and when the parsed value does not match the Checkpoint record shape;
a malformed record is never propagated as an error (the function is total
into `Option`). -/
theorem c7_load_checkpoint_none (j : Json) :
    load_checkpoint none = none ∧
    load_checkpoint (some none) = none ∧
    (checkpointKeysOk j = false → load_checkpoint (some (some j)) = none) := by
  refine ⟨rfl, rfl, ?_⟩
  intro h
  simp [load_checkpoint, checkpoint_of_json, h]

/-- Witness for C7: a JSON array is not checkpoint-shaped and loads as
`none`. -/
theorem c7_witness :
    checkpointKeysOk (Json.arr []) = false ∧
    load_checkpoint (some (some (Json.arr []))) = none :=
  ⟨rfl, (c7_load_checkpoint_none (Json.arr [])).2.2 rfl⟩

/-- C8: for a table whose up-front `COUNT(*)` is `0`, `copy_table_data`
returns success and changes nothing: the statistics record (including
`tables_processed`, `records_processed`, `errors` and the performance-metrics
entries) is returned untouched, no checkpoint is saved, the checkpoint store
is unchanged, no metrics entry is recorded, and nothing is written. -/
theorem c8_empty_table_frame {α : Type} (cfg : Config) (name : String) (B : Nat)
    (wf : Nat → Bool) (stats : Stats) (store : CheckpointStore) :
    (copy_table_data cfg name B ([] : List α) wf stats store).success = true ∧
    (copy_table_data cfg name B ([] : List α) wf stats store).stats = stats ∧
    (copy_table_data cfg name B ([] : List α) wf stats store).saves = [] ∧
    (copy_table_data cfg name B ([] : List α) wf stats store).store = store ∧
    (copy_table_data cfg name B ([] : List α) wf stats store).metrics_recorded
      = false ∧
    (copy_table_data cfg name B ([] : List α) wf stats store).written = [] :=
  ⟨rfl, rfl, rfl, rfl, rfl, rfl⟩

/-- C9: the run orchestrator ignores the Integrity Validator's result —
for every assignment of per-table validation outcomes, `run_backfill` returns
identical statistics, checkpoint store, and aggregate success value. -/
theorem c9_validator_ignored {α : Type} (cfg : Config) (v1 v2 : String → Bool)
    (init_ok : Bool) (tables : List (TableSpec α)) (stats : Stats)
    (store : CheckpointStore) :
    run_backfill cfg v1 init_ok tables stats store
      = run_backfill cfg v2 init_ok tables stats store := rfl


lemma runFold_stats {α : Type} (cfg : Config) (validate : String → Bool) :
    ∀ (tables : List (TableSpec α)) (stats : Stats) (store : CheckpointStore),
    (tables.foldl (runStep cfg validate) (stats, store)).1.records_processed
      = stats.records_processed + (tables.map (tableRecords cfg)).sum ∧
    (tables.foldl (runStep cfg validate) (stats, store)).1.tables_processed
      = stats.tables_processed + (tables.countP (tableCounted cfg)) := by
  intro tables
  induction tables with
  | nil => intro stats store; simp
  | cons t ts ih =>
      intro stats store
      rw [List.foldl_cons]
      have hstep : runStep cfg validate (stats, store) t
          = ((copy_table_data cfg t.name cfg.batch_size t.rows t.writeFails
                stats store).stats,
             (copy_table_data cfg t.name cfg.batch_size t.rows t.writeFails
                stats store).store) := by
        simp [runStep]
      rw [hstep]
      cases hcc : copy_core cfg.enable_resume t.name cfg.batch_size t.rows
          t.writeFails with
      | empty =>
          simp only [copy_table_data, hcc]
          rcases ih stats store with ⟨h1, h2⟩
          constructor
          · rw [h1]
            simp [tableRecords, hcc]
          · rw [h2]
            simp [tableCounted, hcc, List.countP_cons]
      | ok w fl sv pc =>
          simp only [copy_table_data, hcc]
          rcases ih { stats with
              tables_processed := stats.tables_processed + 1,
              records_processed := stats.records_processed + pc,
              performance_metrics := stats.performance_metrics ++ [(t.name, pc)] }
            (if cfg.enable_resume then
              store_clear (applySaves store t.name sv) t.name
             else applySaves store t.name sv) with ⟨h1, h2⟩
          constructor
          · rw [h1]
            simp [tableRecords, hcc]
            omega
          · rw [h2]
            simp [tableCounted, hcc, List.countP_cons]
            omega
      | failed w fl sv =>
          simp only [copy_table_data, hcc]
          rcases ih { stats with errors := stats.errors + 1 }
            (applySaves store t.name sv) with ⟨h1, h2⟩
          constructor
          · rw [h1]
            simp [tableRecords, hcc]
          · rw [h2]
            simp [tableCounted, hcc, List.countP_cons]

/-- C10: across a run, `records_processed` grows by exactly the sum of the
per-table `processed_count` of the tables whose copy reached the success
path, and `tables_processed` by exactly their number; a table whose copy
fails contributes zero to both. -/
theorem c10_stats_success_only {α : Type} (cfg : Config)
    (validate : String → Bool) (tables : List (TableSpec α)) (stats : Stats)
    (store : CheckpointStore) :
    (run_backfill cfg validate true tables stats store).2.1.records_processed
      = stats.records_processed + (tables.map (tableRecords cfg)).sum ∧
    (run_backfill cfg validate true tables stats store).2.1.tables_processed
      = stats.tables_processed + (tables.countP (tableCounted cfg)) := by
  have h := runFold_stats cfg validate tables stats store
  simpa [run_backfill] using h

/-- Witness for C1 at `B = 5` and a 12-row table: 3 flushes, all 12 rows
written. -/
theorem c1_witness :
    0 < 5 ∧ (∀ i : Nat, (fun _ => false : Nat → Bool) i = false) ∧
    ((copy_table_data ⟨5, true, true⟩ "t" 5 (List.range 12) (fun _ => false)
        (⟨0, 0, 0, []⟩ : Stats) []).success = true ∧
      (copy_table_data ⟨5, true, true⟩ "t" 5 (List.range 12) (fun _ => false)
        (⟨0, 0, 0, []⟩ : Stats) []).written = List.range 12 ∧
      (copy_table_data ⟨5, true, true⟩ "t" 5 (List.range 12) (fun _ => false)
        (⟨0, 0, 0, []⟩ : Stats) []).flushes
          = ((List.range 12).length + 5 - 1) / 5) :=
  ⟨by decide, fun _ => rfl,
    c1_copy_flushes_and_rows ⟨5, true, true⟩ "t" (List.range 12)
      (⟨0, 0, 0, []⟩ : Stats) [] (by decide) (fun _ => rfl)⟩

/-- Witness for C4 (amended): a 12-row table at `batch_size = 5` ends with
a checkpoint carrying `processed_count = 12`. -/
theorem c4_witness :
    0 < 5 ∧ (List.range 12).length % 5 ≠ 0 ∧
    (∃ ts, (copy_table_data ⟨5, true, true⟩ "t" 5 (List.range 12)
        (fun _ => false) (⟨0, 0, 0, []⟩ : Stats) []).saves.getLast?
      = some ⟨"t", (List.range 12).length, (List.range 12).length, ts, 5⟩) :=
  ⟨by decide, by decide,
    c4_final_checkpoint_on_partial_batch ⟨5, true, true⟩ "t" (List.range 12)
      (⟨0, 0, 0, []⟩ : Stats) [] (by decide) (fun _ => rfl) rfl (by decide)⟩

/-- Witness for C5: the final checkpoint of a 12-row copy at
`batch_size = 5` satisfies the bounds. -/
theorem c5_witness :
    (⟨"t", 12, 12, 3, 5⟩ : Checkpoint) ∈
      (copy_table_data ⟨5, true, true⟩ "t" 5 (List.range 12) (fun _ => false)
        (⟨0, 0, 0, []⟩ : Stats) []).saves ∧
    (0 ≤ (12 : Nat) ∧ (12 : Nat) ≤ 12 ∧ (12 : Nat) = (List.range 12).length) :=
  ⟨by decide,
    c5_checkpoint_bounds ⟨5, true, true⟩ "t" 5 (List.range 12) (fun _ => false)
      ⟨0, 0, 0, []⟩ [] ⟨"t", 12, 12, 3, 5⟩ (by decide)⟩

/-- Witness for C6: first write of a 3-row table fails; the pre-existing
checkpoint survives, `errors` goes from 1 to 2, and the run proceeds past the
table. -/
theorem c6_witness :
    (copy_table_data ⟨2, true, true⟩ "t" (Config.batch_size ⟨2, true, true⟩)
        [1, 2, 3] (fun i => i == 0) (⟨4, 7, 1, []⟩ : Stats)
        [("t", ⟨"t", 9, 9, 1, 2⟩)]).success = false ∧
    ((copy_table_data ⟨2, true, true⟩ "t" (Config.batch_size ⟨2, true, true⟩)
        [1, 2, 3] (fun i => i == 0) (⟨4, 7, 1, []⟩ : Stats)
        [("t", ⟨"t", 9, 9, 1, 2⟩)]).cleared = false ∧
      (copy_table_data ⟨2, true, true⟩ "t" (Config.batch_size ⟨2, true, true⟩)
        [1, 2, 3] (fun i => i == 0) (⟨4, 7, 1, []⟩ : Stats)
        [("t", ⟨"t", 9, 9, 1, 2⟩)]).stats.errors = (⟨4, 7, 1, []⟩ : Stats).errors + 1 ∧
      (copy_table_data ⟨2, true, true⟩ "t" (Config.batch_size ⟨2, true, true⟩)
        [1, 2, 3] (fun i => i == 0) (⟨4, 7, 1, []⟩ : Stats)
        [("t", ⟨"t", 9, 9, 1, 2⟩)]).store
        = applySaves [("t", ⟨"t", 9, 9, 1, 2⟩)] "t"
            (copy_table_data ⟨2, true, true⟩ "t" (Config.batch_size ⟨2, true, true⟩)
              [1, 2, 3] (fun i => i == 0) (⟨4, 7, 1, []⟩ : Stats)
              [("t", ⟨"t", 9, 9, 1, 2⟩)]).saves ∧
      run_backfill ⟨2, true, true⟩ (fun _ => true) true
          (⟨"t", [1, 2, 3], fun i => i == 0⟩ :: []) (⟨4, 7, 1, []⟩ : Stats)
          [("t", ⟨"t", 9, 9, 1, 2⟩)]
        = run_backfill ⟨2, true, true⟩ (fun _ => true) true ([] : List (TableSpec Nat))
            (copy_table_data ⟨2, true, true⟩ "t" (Config.batch_size ⟨2, true, true⟩)
              [1, 2, 3] (fun i => i == 0) (⟨4, 7, 1, []⟩ : Stats)
              [("t", ⟨"t", 9, 9, 1, 2⟩)]).stats
            (copy_table_data ⟨2, true, true⟩ "t" (Config.batch_size ⟨2, true, true⟩)
              [1, 2, 3] (fun i => i == 0) (⟨4, 7, 1, []⟩ : Stats)
              [("t", ⟨"t", 9, 9, 1, 2⟩)]).store) :=
  ⟨by decide,
    c6_write_failure_behavior ⟨2, true, true⟩ "t" [1, 2, 3] (fun i => i == 0)
      (fun _ => true) (⟨4, 7, 1, []⟩ : Stats) [("t", ⟨"t", 9, 9, 1, 2⟩)] []
      (by decide)⟩

end Backfill
